import Mathlib

/-!
Verification of the llm-agent workflow core (workflow_nodes.py, main.py,
tools.py) against its specification.  The Python program is shallowly
embedded: langchain message variants become an inductive type, the
AgentState TypedDict becomes a structure, and each workflow node becomes a
pure function from state to the update dictionary it returns.  The program
runs its nodes inside a langgraph StateGraph whose messages channel is
declared with the add_messages reducer (workflow_nodes.py line 17), so a
node transition is the returned update merged into the channel state by
that reducer; the reducer is embedded explicitly below (assignIds,
mergeOne, addMessages) following its documented algorithm: messages in the
update without an id receive a fresh one, updates whose id matches an
existing message replace it in place, and the rest are appended.
-/

namespace LlmAgent

/-- One structured tool-call request inside an assistant turn, as produced
by llm_service.py lines 72-79: a name, JSON-encoded arguments (kept opaque
as a string here) and a call id. -/
structure ToolCall where
  id : String
  name : String
  args : String
  deriving Repr, DecidableEq

/-- The four langchain message variants the program constructs
(workflow_nodes.py imports SystemMessage, HumanMessage, AIMessage,
ToolMessage).  An AIMessage carries its tool_calls list (default empty);
a ToolMessage carries its correlating tool_call_id. -/
inductive BaseMessage where
  | SystemMessage (content : String)
  | HumanMessage (content : String)
  | AIMessage (content : String) (tool_calls : List ToolCall)
  | ToolMessage (content : String) (tool_call_id : String)
  deriving Repr, DecidableEq

/-- A message as stored in the langgraph messages channel: the reducer
add_messages gives every stored message an id (modelled as a natural
number standing for the generated uuid); a freshly constructed message has
id none until the reducer assigns one. -/
structure IdMsg where
  id : Option Nat
  msg : BaseMessage
  deriving Repr, DecidableEq

/-- AgentState, workflow_nodes.py lines 16-21.  recursion_count is a
Python int that is only ever set to 0 or incremented, so Nat is faithful. -/
structure AgentState where
  messages : List IdMsg
  project_path : Option String
  recursion_count : Nat
  should_terminate : Bool
  is_waiting_response : Bool
  deriving Repr, DecidableEq

/-- The dictionary a workflow node returns.  Every return statement in
workflow_nodes.py produces exactly the four keys messages,
recursion_count, should_terminate, is_waiting_response (the no-op
branches return the whole input state, which carries the same four keys
with unchanged values plus project_path with its unchanged value; since
the merge below never touches project_path, omitting it here loses
nothing).  Notably no node puts project_path into its returned update. -/
structure NodeUpdate where
  messages : List IdMsg
  recursion_count : Nat
  should_terminate : Bool
  is_waiting_response : Bool
  deriving Repr, DecidableEq

/-- The graph-level state: the channel values plus the supply of fresh
message ids (modelling uuid generation: fresh ids are taken strictly
increasing, hence never collide with ids already in the channel). -/
structure GraphState where
  state : AgentState
  next_id : Nat
  deriving Repr, DecidableEq

/-- First half of the add_messages reducer: every message of the update
that has no id yet receives a fresh one; messages that already carry an
id are kept as they are.  Returns the processed list and the next unused
id. -/
def assignIds : Nat → List IdMsg → List IdMsg × Nat
  | next, [] => ([], next)
  | next, m :: ms =>
    match m.id with
    | some _ =>
      let p := assignIds next ms
      (m :: p.1, p.2)
    | none =>
      let p := assignIds (next + 1) ms
      ((⟨some next, m.msg⟩ : IdMsg) :: p.1, p.2)

/-- Second half of the add_messages reducer, one update message at a
time: if the accumulated list already holds a message with the same id it
is replaced in place, otherwise the message is appended. -/
def mergeOne (left : List IdMsg) (m : IdMsg) : List IdMsg :=
  if left.any fun x => x.id == m.id then
    left.map fun x => if x.id == m.id then m else x
  else left ++ [m]

/-- The add_messages reducer: assign ids to the update, then merge it
into the channel value left to right. -/
def addMessages (left right : List IdMsg) (next : Nat) : List IdMsg × Nat :=
  (List.foldl mergeOne left (assignIds next right).1, (assignIds next right).2)

/-- Application of a node return value to the graph state: the messages
key goes through the add_messages reducer, the three scalar keys are
LastValue channels and are simply overwritten, and project_path — absent
from every returned update — keeps its previous channel value. -/
def applyUpdate (g : GraphState) (u : NodeUpdate) : GraphState :=
  { state :=
      { messages := (addMessages g.state.messages u.messages g.next_id).1
        project_path := g.state.project_path
        recursion_count := u.recursion_count
        should_terminate := u.should_terminate
        is_waiting_response := u.is_waiting_response }
    next_id := (addMessages g.state.messages u.messages g.next_id).2 }

/-- Python str.lower, character by character (the program only lowercases
ASCII keywords and Chinese text, on which this agrees with Python). -/
def lowerStr (s : String) : String := String.mk (s.data.map Char.toLower)

/-- Python str.strip with no argument: drop leading and trailing
whitespace. -/
def pyStrip (s : String) : String :=
  String.mk (((s.data.dropWhile Char.isWhitespace).reverse.dropWhile
    Char.isWhitespace).reverse)

/-- The exit keyword list of workflow_nodes.py line 86 (and 168). -/
def exitKeywords : List String := ["exit", "quit", "退出"]

/-- The update returned by the no-op branches that execute
return state. -/
def noopUpdate (s : AgentState) : NodeUpdate :=
  { messages := s.messages
    recursion_count := s.recursion_count
    should_terminate := s.should_terminate
    is_waiting_response := s.is_waiting_response }

/-- Tail of the route function, workflow_nodes.py lines 89-105: the
checks performed after the exit-keyword test has not returned.  Note that
the is_waiting_response test precedes the AIMessage test, and that the
AIMessage branch always returns (tools or user_inquiry), so the
recursion_count ceiling on line 102 is only consulted when the last
message is neither a HumanMessage matching an exit keyword nor an
AIMessage. -/
def routeTail (s : AgentState) (last : BaseMessage) : String :=
  if s.is_waiting_response then "user_inquiry"
  else
    match last with
    | BaseMessage.AIMessage _ tool_calls =>
      if tool_calls ≠ [] then "tools" else "user_inquiry"
    | _ =>
      if s.recursion_count ≥ 45 then "require_confirmation" else "agent"

/-- route, workflow_nodes.py lines 80-105.  The Python indexes
messages[-1], which raises on an empty history; that partiality is the
none case.  The exit test lowercases the content but does not strip it. -/
def route (s : AgentState) : Option String :=
  match s.messages.getLast? with
  | none => none
  | some last =>
    match last.msg with
    | BaseMessage.HumanMessage content =>
      if exitKeywords.contains (lowerStr content) then some "end"
      else some (routeTail s (BaseMessage.HumanMessage content))
    | m => some (routeTail s m)

/-- agent_node, workflow_nodes.py lines 26-78.  The llm.chat network call
is abstracted as the response parameter (llm_service.py line 57 always
returns an AIMessage, but nothing here depends on that).  The two guard
branches return the input state unchanged; otherwise the response is
appended and the counters updated exactly as in lines 72-78.  The
conversion of history to wire format (lines 39-66) reads the state but
does not change it, so it has no footprint in the embedding. -/
def agent_node (response : BaseMessage) (s : AgentState) : NodeUpdate :=
  if s.messages.length < 2 then noopUpdate s
  else if s.should_terminate then noopUpdate s
  else
    { messages := s.messages ++ [⟨none, response⟩]
      recursion_count := s.recursion_count + 1
      should_terminate := false
      is_waiting_response := false }

/-- The names in ProjectTools.get_all_tools (tools.py lines 20-30):
create_file and run_command; get_directory_structure is commented out. -/
def registryNames : List String := ["create_file", "run_command"]

/-- Serialization json.dumps of a tool result, modelled over results as
association lists from field name to (already serialized) field value.
Only its use as an opaque content string matters to the claims. -/
def jsonDumps (r : List (String × String)) : String :=
  "\x7b" ++ String.intercalate ", "
      (r.map fun kv => "\x22" ++ kv.1 ++ "\x22: \x22" ++ kv.2 ++ "\x22")
    ++ "\x7d"

/-- Outcome of invoking a resolved tool: a result dictionary, or a raised
exception with its text.  The filesystem and subprocess effects behind
tools.py are abstracted into this oracle. -/
inductive ToolOutcome where
  | ok (result : List (String × String))
  | exn (msg : String)
  deriving Repr, DecidableEq

/-- The ToolMessage appended for one resolved call, tools loop of
workflow_nodes.py lines 120-137: on success the serialized result, on
exception the serialized error dictionary, both correlated by the call
id. -/
def toolResultMessage (env : ToolCall → ToolOutcome) (c : ToolCall) : BaseMessage :=
  match env c with
  | ToolOutcome.ok r => BaseMessage.ToolMessage (jsonDumps r) c.id
  | ToolOutcome.exn e =>
    BaseMessage.ToolMessage (jsonDumps [("status", "error"), ("message", e)]) c.id

/-- The tool_messages list built by the loop of workflow_nodes.py lines
117-137, in loop order: calls whose name is not found among the registry
names are skipped without appending anything. -/
def toolResponses (env : ToolCall → ToolOutcome) : List ToolCall → List BaseMessage
  | [] => []
  | c :: cs =>
    if registryNames.contains c.name then
      toolResultMessage env c :: toolResponses env cs
    else
      toolResponses env cs

/-- posixpath dirname, as called on line 131 of workflow_nodes.py:
everything up to the last slash, with trailing slashes stripped unless
the head consists of slashes only. -/
def pyDirname (p : String) : String :=
  let cs := p.toList
  match ((List.range cs.length).filter fun i => cs.get? i = some '/').getLast? with
  | none => ""
  | some i =>
    let head := cs.take (i + 1)
    if head.all fun c => c = '/' then String.mk head
    else String.mk ((head.reverse.dropWhile fun c => c = '/').reverse)

/-- The value left in the local variable state["project_path"] by the
in-place writes of workflow_nodes.py lines 130-131, folded over the call
list in loop order: every successful result carrying a file_path field
overwrites it with the dirname of that path (last write wins); skipped
and failing calls leave it alone.  This write targets the per-invocation
state dictionary only; the returned update (lines 139-144) does not
contain project_path, so the value never reaches the graph state. -/
def lostProjectPath (env : ToolCall → ToolOutcome) (acc : Option String) :
    List ToolCall → Option String
  | [] => acc
  | c :: cs =>
    if registryNames.contains c.name then
      match env c with
      | ToolOutcome.ok r =>
        match (r.find? fun kv => kv.1 = "file_path") with
        | some kv => lostProjectPath env (some (pyDirname kv.2)) cs
        | none => lostProjectPath env acc cs
      | ToolOutcome.exn _ => lostProjectPath env acc cs
    else
      lostProjectPath env acc cs

/-- Python hasattr(message, "tool_calls"): of the four langchain message
classes used here only AIMessage has a tool_calls attribute. -/
def hasToolCallsAttr : BaseMessage → Bool
  | BaseMessage.AIMessage _ _ => true
  | _ => false

/-- The tool_calls attribute read on line 117. -/
def toolCallsOf : BaseMessage → List ToolCall
  | BaseMessage.AIMessage _ tcs => tcs
  | _ => []

/-- tool_node, workflow_nodes.py lines 107-144.  none models the
IndexError of messages[-1] on an empty history.  When the last message
lacks the tool_calls attribute the node returns the state unchanged;
otherwise it returns the history plus the produced tool messages with
the counter incremented and the flags cleared.  The returned dictionary
has no project_path key (see lostProjectPath for the dropped in-place
write). -/
def tool_node (env : ToolCall → ToolOutcome) (s : AgentState) : Option NodeUpdate :=
  match s.messages.getLast? with
  | none => none
  | some last =>
    if hasToolCallsAttr last.msg then
      some
        { messages :=
            s.messages ++ (toolResponses env (toolCallsOf last.msg)).map fun m => ⟨none, m⟩
          recursion_count := s.recursion_count + 1
          should_terminate := false
          is_waiting_response := false }
    else some (noopUpdate s)

/-- The user_input value as computed by user_inquiry_node lines 158-163:
what input() returned is stripped, an empty result replaced by the
sentinel marker, and a KeyboardInterrupt (none) replaced by the literal
exit. -/
def inquiryInput (raw : Option String) : String :=
  match raw with
  | none => "exit"
  | some t => if pyStrip t = "" then "[无输入]" else pyStrip t

/-- user_inquiry_node, workflow_nodes.py lines 146-170.  The raw
parameter is what input() returned, none standing for a
KeyboardInterrupt, which the except clause converts to the literal
string exit without stripping.  A stripped-empty line becomes the
sentinel marker.  none on the outside models the IndexError of
messages[-1] on an empty history (line 152). -/
def user_inquiry_node (raw : Option String) (s : AgentState) : Option NodeUpdate :=
  match s.messages.getLast? with
  | none => none
  | some _ =>
    some
      { messages := s.messages ++ [⟨none, BaseMessage.HumanMessage (inquiryInput raw)⟩]
        recursion_count := 0
        should_terminate := exitKeywords.contains (lowerStr (inquiryInput raw))
        is_waiting_response := false }

/-- Content of the synthetic confirmation turn, workflow_nodes.py
line 175. -/
def confirmationContent : String := "【确认】已达到操作限制，是否继续？(继续/退出)"

/-- require_confirmation, workflow_nodes.py lines 172-179: the returned
update carries a message list holding only the freshly constructed
confirmation AIMessage, a zero counter, and the waiting flag set. -/
def require_confirmation (_s : AgentState) : NodeUpdate :=
  { messages := [⟨none, BaseMessage.AIMessage confirmationContent []⟩]
    recursion_count := 0
    should_terminate := false
    is_waiting_response := true }

/-- One node transition of the compiled graph, tagged with the node that
runs and the external inputs it consumes (LLM response, tool outcomes,
line of user input). -/
inductive NodeKind where
  | agent (response : BaseMessage)
  | tools (env : ToolCall → ToolOutcome)
  | inquiry (raw : Option String)
  | confirm

/-- The update dictionary the selected node returns on a given state. -/
def nodeUpdate : NodeKind → AgentState → Option NodeUpdate
  | NodeKind.agent r, s => some (agent_node r s)
  | NodeKind.tools env, s => tool_node env s
  | NodeKind.inquiry raw, s => user_inquiry_node raw s
  | NodeKind.confirm, s => some (require_confirmation s)

/-- One full node transition: run the node, then merge its returned
update into the graph state through the channel reducers. -/
def stepOnce (k : NodeKind) (g : GraphState) : Option GraphState :=
  (nodeUpdate k g.state).map (applyUpdate g)

/-- The session state built in main.py lines 113-120 — a single system
turn, no project path, zero counter, cleared flags — as it stands in the
channels after the input merge has assigned the system turn its id. -/
def initialGraphState (sysContent : String) : GraphState :=
  { state :=
      { messages := [⟨some 0, BaseMessage.SystemMessage sysContent⟩]
        project_path := none
        recursion_count := 0
        should_terminate := false
        is_waiting_response := false }
    next_id := 1 }

/-- States reachable from the initial session state by any sequence of
node transitions. -/
inductive Reachable (sys : String) : GraphState → Prop where
  | init : Reachable sys (initialGraphState sys)
  | step : ∀ k g g₂, Reachable sys g → stepOnce k g = some g₂ → Reachable sys g₂

/-- A stored message is well formed for an id supply when it has an id
and that id is below the supply. -/
def idOk (next : Nat) (m : IdMsg) : Bool :=
  match m.id with
  | none => false
  | some i => i < next

/-- Channel well-formedness: every stored message has an id below the
fresh-id supply and no two stored messages share an id.  This holds in
the initial state and is preserved by every transition; it is what makes
the add_messages merge behave as plain append of the fresh suffix. -/
def IdsWF (g : GraphState) : Prop :=
  (∀ m ∈ g.state.messages, idOk g.next_id m = true) ∧
    (g.state.messages.map IdMsg.id).Nodup

instance (g : GraphState) : Decidable (IdsWF g) := by
  unfold IdsWF
  infer_instance

/-- C1, amended theorem.  For every state whose most recent turn is a
user turn whose case-folded content equals one of the exit keywords
exit, quit, 退出 exactly (route lowercases but does not strip the
content), the routing function returns end, regardless of the values of
is_waiting_response, should_terminate and recursion_count. -/
theorem c1_exit_routing (s : AgentState) (last : IdMsg) (content : String)
    (hlast : s.messages.getLast? = some last)
    (hmsg : last.msg = BaseMessage.HumanMessage content)
    (hkw : exitKeywords.contains (lowerStr content) = true) :
    route s = some "end" := by
  obtain ⟨lid, lmsg⟩ := last
  change lmsg = _ at hmsg
  subst hmsg
  have hkw2 : lowerStr content ∈ exitKeywords := by simpa using hkw
  simp [route, hlast, hkw2]

/-- State whose last turn is a user turn reading one space followed by
exit: its trimmed case-folded content equals the keyword exit, yet route
(which does not strip) sends it to agent. -/
def exC1cex : AgentState :=
  ⟨[⟨some 0, BaseMessage.SystemMessage "sys"⟩,
    ⟨some 1, BaseMessage.HumanMessage " exit"⟩], none, 0, false, false⟩

/-- C1, counterexample to the claim as stated: the trimmed case-folded
content of the latest user turn equals the exit keyword, but route
returns agent, not end, because workflow_nodes.py line 86 lowercases
without stripping. -/
theorem c1_exit_routing_cex :
    pyStrip (lowerStr " exit") = "exit" ∧ route exC1cex = some "agent" ∧
      route exC1cex ≠ some "end" :=
  ⟨by decide, by decide, by decide⟩

/-- State used to instantiate the amended C1 theorem: latest turn is a
user turn reading Exit, with nonzero counter and both flags set. -/
def exC1wit : AgentState :=
  ⟨[⟨some 0, BaseMessage.SystemMessage "sys"⟩,
    ⟨some 1, BaseMessage.HumanMessage "Exit"⟩], none, 45, true, true⟩

/-- C1, witness: the amended theorem applied to a concrete state. -/
theorem c1_exit_routing_witness : route exC1wit = some "end" :=
  c1_exit_routing exC1wit ⟨some 1, BaseMessage.HumanMessage "Exit"⟩ "Exit"
    (by decide) rfl (by decide)

/-- C2, amended theorem.  For every state whose most recent turn is an
assistant turn carrying at least one tool-call request and whose
is_waiting_response flag is false, the routing function returns tools
and never user_inquiry (when the flag is set, routing rule 2 of the
specification wins and sends control to user_inquiry instead, see the
counterexample). -/
theorem c2_toolcall_routing (s : AgentState) (last : IdMsg) (content : String)
    (tcs : List ToolCall)
    (hlast : s.messages.getLast? = some last)
    (hmsg : last.msg = BaseMessage.AIMessage content tcs)
    (htc : tcs ≠ [])
    (hwait : s.is_waiting_response = false) :
    route s = some "tools" ∧ route s ≠ some "user_inquiry" := by
  obtain ⟨lid, lmsg⟩ := last
  change lmsg = _ at hmsg
  subst hmsg
  have h : route s = some "tools" := by
    simp [route, hlast, routeTail, hwait, htc]
  exact ⟨h, by simp [h]⟩

/-- State whose last turn is an assistant turn with one tool call while
is_waiting_response is true. -/
def exC2cex : AgentState :=
  ⟨[⟨some 0, BaseMessage.SystemMessage "sys"⟩,
    ⟨some 1, BaseMessage.AIMessage ""
      [⟨"call_1", "create_file", "\x7ba\x7d"⟩]⟩], none, 0, false, true⟩

/-- C2, counterexample to the claim as stated: with is_waiting_response
true the is_waiting_response check on workflow_nodes.py line 90 fires
before the tool-call check, so an assistant turn carrying a tool-call
request is routed to user_inquiry, not tools — the claim fails for this
value of the other state flags. -/
theorem c2_toolcall_routing_cex :
    route exC2cex = some "user_inquiry" ∧ route exC2cex ≠ some "tools" :=
  ⟨by decide, by decide⟩

/-- Same state as the C2 counterexample but with is_waiting_response
false. -/
def exC2wit : AgentState :=
  ⟨[⟨some 0, BaseMessage.SystemMessage "sys"⟩,
    ⟨some 1, BaseMessage.AIMessage ""
      [⟨"call_1", "create_file", "\x7ba\x7d"⟩]⟩], none, 0, false, false⟩

/-- C2, witness: the amended theorem applied to a concrete state. -/
theorem c2_toolcall_routing_witness :
    route exC2wit = some "tools" ∧ route exC2wit ≠ some "user_inquiry" :=
  c2_toolcall_routing exC2wit
    ⟨some 1, BaseMessage.AIMessage "" [⟨"call_1", "create_file", "\x7ba\x7d"⟩]⟩
    "" [⟨"call_1", "create_file", "\x7ba\x7d"⟩] (by decide) rfl (by decide) rfl

/-- C3: for every state whose most recent turn is an assistant turn with
no tool-call requests and whose recursion_count has reached the ceiling
of 45, route returns user_inquiry and not require_confirmation — the
plain-assistant-reply rule takes precedence over the step-ceiling check
(workflow_nodes.py lines 94-105: the AIMessage branch returns before the
ceiling test is reached, whatever is_waiting_response is). -/
theorem c3_rule4_beats_limit (s : AgentState) (last : IdMsg) (content : String)
    (hlast : s.messages.getLast? = some last)
    (hmsg : last.msg = BaseMessage.AIMessage content [])
    (_hcount : 45 ≤ s.recursion_count) :
    route s = some "user_inquiry" ∧ route s ≠ some "require_confirmation" := by
  obtain ⟨lid, lmsg⟩ := last
  change lmsg = _ at hmsg
  subst hmsg
  have h : route s = some "user_inquiry" := by
    by_cases hw : s.is_waiting_response <;> simp [route, hlast, routeTail, hw]
  exact ⟨h, by simp [h]⟩

/-- State at the step ceiling whose last turn is a plain assistant
reply. -/
def exC3wit : AgentState :=
  ⟨[⟨some 0, BaseMessage.SystemMessage "sys"⟩,
    ⟨some 1, BaseMessage.AIMessage "done" []⟩], none, 45, false, false⟩

/-- C3, witness: the theorem applied to a concrete state at the
ceiling. -/
theorem c3_rule4_beats_limit_witness :
    route exC3wit = some "user_inquiry" ∧
      route exC3wit ≠ some "require_confirmation" :=
  c3_rule4_beats_limit exC3wit ⟨some 1, BaseMessage.AIMessage "done" []⟩ "done"
    (by decide) rfl (by decide)

/-- The ids a merge hands out to a block of fresh messages: consecutive
values starting at the given supply. -/
def tagFrom : Nat → List BaseMessage → List IdMsg
  | _, [] => []
  | next, m :: ms => ⟨some next, m⟩ :: tagFrom (next + 1) ms

theorem tagFrom_map_msg (ms : List BaseMessage) (next : Nat) :
    (tagFrom next ms).map IdMsg.msg = ms := by
  induction ms generalizing next with
  | nil => rfl
  | cons a ms ih => simp [tagFrom, ih]

theorem tagFrom_id_mem (ms : List BaseMessage) (next : Nat) (m : IdMsg)
    (h : m ∈ tagFrom next ms) :
    ∃ i, m.id = some i ∧ next ≤ i ∧ i < next + ms.length := by
  induction ms generalizing next with
  | nil => simp [tagFrom] at h
  | cons a ms ih =>
    rcases (by simpa [tagFrom] using h : m = ⟨some next, a⟩ ∨ m ∈ tagFrom (next + 1) ms)
      with h | h
    · subst h
      exact ⟨next, rfl, Nat.le_refl _, by simp⟩
    · obtain ⟨i, h1, h2, h3⟩ := ih (next + 1) h
      exact ⟨i, h1, by omega, by simp only [List.length_cons]; omega⟩

theorem tagFrom_nodup (ms : List BaseMessage) (next : Nat) :
    ((tagFrom next ms).map IdMsg.id).Nodup := by
  induction ms generalizing next with
  | nil => simp [tagFrom]
  | cons a ms ih =>
    simp only [tagFrom, List.map_cons, List.nodup_cons]
    refine ⟨?_, ih (next + 1)⟩
    intro hmem
    obtain ⟨m, hm, hid⟩ := List.mem_map.mp hmem
    obtain ⟨i, h1, h2, h3⟩ := tagFrom_id_mem ms (next + 1) m hm
    rw [h1] at hid
    have : i = next := Option.some.inj hid
    omega

theorem assignIds_append_some (l₁ l₂ : List IdMsg) (next : Nat)
    (h : ∀ m ∈ l₁, m.id ≠ none) :
    assignIds next (l₁ ++ l₂)
      = (l₁ ++ (assignIds next l₂).1, (assignIds next l₂).2) := by
  induction l₁ with
  | nil => simp
  | cons m ms ih =>
    have hm : m.id ≠ none := h m (by simp)
    obtain ⟨i, hi⟩ : ∃ i, m.id = some i := by
      cases hx : m.id with
      | none => exact absurd hx hm
      | some i => exact ⟨i, rfl⟩
    have ihx := ih fun x hx => h x (by simp [hx])
    simp only [List.cons_append, assignIds, hi, List.append_eq, ihx]

theorem assignIds_fresh (ms : List BaseMessage) (next : Nat) :
    assignIds next (ms.map fun m => ⟨none, m⟩)
      = (tagFrom next ms, next + ms.length) := by
  induction ms generalizing next with
  | nil => simp [assignIds, tagFrom]
  | cons a ms ih =>
    simp only [List.map_cons, assignIds, ih, tagFrom, List.length_cons,
      Prod.mk.injEq, true_and, and_true, eq_self_iff_true]
    omega

theorem mergeOne_mem (left : List IdMsg) (m : IdMsg)
    (hmem : m ∈ left) (hnd : (left.map IdMsg.id).Nodup) : mergeOne left m = left := by
  unfold mergeOne
  have hany : (left.any fun x => x.id == m.id) = true :=
    List.any_eq_true.mpr ⟨m, hmem, by simp⟩
  rw [hany]
  simp only [if_true]
  have hfix : ∀ x ∈ left, (if x.id == m.id then m else x) = x := by
    intro x hx
    by_cases hid : x.id = m.id
    · have hxm : x = m := List.inj_on_of_nodup_map hnd hx hmem hid
      simp [hid, hxm]
    · simp [hid]
  calc left.map (fun x => if x.id == m.id then m else x)
      = left.map id := List.map_congr_left fun a ha => hfix a ha
    _ = left := List.map_id left

theorem foldl_mergeOne_replay (left l₂ : List IdMsg)
    (hnd : (left.map IdMsg.id).Nodup) (hsub : ∀ m ∈ l₂, m ∈ left) :
    List.foldl mergeOne left l₂ = left := by
  induction l₂ with
  | nil => rfl
  | cons m ms ih =>
    rw [List.foldl_cons, mergeOne_mem left m (hsub m (by simp)) hnd]
    exact ih fun x hx => hsub x (by simp [hx])

theorem foldl_mergeOne_append (r left : List IdMsg)
    (hdis : ∀ m ∈ r, ∀ x ∈ left, x.id ≠ m.id)
    (hnd : (r.map IdMsg.id).Nodup) :
    List.foldl mergeOne left r = left ++ r := by
  induction r generalizing left with
  | nil => simp
  | cons m ms ih =>
    rw [List.map_cons] at hnd
    have hany : (left.any fun x => x.id == m.id) = false := by
      rw [List.any_eq_false]
      intro x hx
      simpa using hdis m (by simp) x hx
    have h1 : mergeOne left m = left ++ [m] := by
      unfold mergeOne
      rw [hany]
      simp
    rw [List.foldl_cons, h1]
    have hnd2 : ((ms.map IdMsg.id)).Nodup := (List.nodup_cons.mp hnd).2
    have hdis2 : ∀ a ∈ ms, ∀ y ∈ left ++ [m], y.id ≠ a.id := by
      intro a ha y hy
      rcases List.mem_append.mp hy with hy | hy
      · exact hdis a (by simp [ha]) y hy
      · have hym : y = m := by simpa using hy
        rw [hym]
        intro hcontra
        exact (List.nodup_cons.mp hnd).1
          (by rw [hcontra]; exact List.mem_map.mpr ⟨a, ha, rfl⟩)
    rw [ih (left ++ [m]) hdis2 hnd2, List.append_assoc]
    rfl

theorem idOk_lt (next : Nat) (m : IdMsg) (h : idOk next m = true) :
    ∃ i, m.id = some i ∧ i < next := by
  cases hid : m.id with
  | none => simp [idOk, hid] at h
  | some i => exact ⟨i, rfl, by simpa [idOk, hid] using h⟩

theorem tagFrom_disjoint (g : GraphState) (fresh : List BaseMessage)
    (hok : ∀ m ∈ g.state.messages, idOk g.next_id m = true) :
    ∀ m ∈ tagFrom g.next_id fresh, ∀ x ∈ g.state.messages, x.id ≠ m.id := by
  intro m hm x hx
  obtain ⟨i, h1, h2, _⟩ := tagFrom_id_mem fresh g.next_id m hm
  obtain ⟨j, hj1, hj2⟩ := idOk_lt g.next_id x (hok x hx)
  rw [h1, hj1]
  intro hcontra
  have : j = i := Option.some.inj hcontra
  omega

theorem addMessages_keep (g : GraphState) (fresh : List BaseMessage)
    (h : IdsWF g) :
    addMessages g.state.messages
        (g.state.messages ++ fresh.map fun m => ⟨none, m⟩) g.next_id
      = (g.state.messages ++ tagFrom g.next_id fresh,
          g.next_id + fresh.length) := by
  obtain ⟨hok, hnd⟩ := h
  have hsome : ∀ m ∈ g.state.messages, m.id ≠ none := by
    intro m hm hnone
    obtain ⟨i, hi, _⟩ := idOk_lt g.next_id m (hok m hm)
    rw [hnone] at hi
    exact Option.noConfusion hi
  unfold addMessages
  rw [assignIds_append_some _ _ _ hsome, assignIds_fresh]
  dsimp only
  rw [List.foldl_append]
  rw [foldl_mergeOne_replay _ _ hnd fun m hm => hm]
  rw [foldl_mergeOne_append (tagFrom g.next_id fresh) g.state.messages
    (tagFrom_disjoint g fresh hok) (tagFrom_nodup fresh g.next_id)]

theorem addMessages_freshOnly (g : GraphState) (fresh : List BaseMessage)
    (h : IdsWF g) :
    addMessages g.state.messages (fresh.map fun m => ⟨none, m⟩) g.next_id
      = (g.state.messages ++ tagFrom g.next_id fresh,
          g.next_id + fresh.length) := by
  obtain ⟨hok, hnd⟩ := h
  unfold addMessages
  rw [assignIds_fresh]
  dsimp only
  rw [foldl_mergeOne_append (tagFrom g.next_id fresh) g.state.messages
    (tagFrom_disjoint g fresh hok) (tagFrom_nodup fresh g.next_id)]

/-- Every node returns a message list that is either the input history
plus some freshly constructed messages (agent_node, tool_node,
user_inquiry_node and all no-op branches) or freshly constructed
messages alone (require_confirmation). -/
theorem nodeUpdate_messages_shape (k : NodeKind) (s : AgentState) (u : NodeUpdate)
    (h : nodeUpdate k s = some u) :
    (∃ fresh : List BaseMessage,
        u.messages = s.messages ++ fresh.map fun m => ⟨none, m⟩) ∨
      (∃ fresh : List BaseMessage,
        u.messages = fresh.map fun m => ⟨none, m⟩) := by
  cases k with
  | agent r =>
    left
    simp only [nodeUpdate, Option.some.injEq] at h
    subst h
    unfold agent_node
    by_cases h1 : s.messages.length < 2
    · rw [if_pos h1]
      exact ⟨[], by simp [noopUpdate]⟩
    · rw [if_neg h1]
      by_cases h2 : s.should_terminate = true
      · rw [if_pos h2]
        exact ⟨[], by simp [noopUpdate]⟩
      · rw [if_neg h2]
        exact ⟨[r], by simp⟩
  | tools env =>
    left
    simp only [nodeUpdate] at h
    unfold tool_node at h
    cases hl : s.messages.getLast? with
    | none => rw [hl] at h; exact absurd h (by simp)
    | some last =>
      rw [hl] at h
      dsimp only at h
      by_cases hattr : hasToolCallsAttr last.msg = true
      · rw [if_pos hattr] at h
        simp only [Option.some.injEq] at h
        subst h
        exact ⟨toolResponses env (toolCallsOf last.msg), rfl⟩
      · rw [if_neg hattr] at h
        simp only [Option.some.injEq] at h
        subst h
        exact ⟨[], by simp [noopUpdate]⟩
  | inquiry raw =>
    left
    simp only [nodeUpdate] at h
    unfold user_inquiry_node at h
    cases hl : s.messages.getLast? with
    | none => rw [hl] at h; exact absurd h (by simp)
    | some last =>
      rw [hl] at h
      simp only [Option.some.injEq] at h
      subst h
      exact ⟨[BaseMessage.HumanMessage (inquiryInput raw)], by simp⟩
  | confirm =>
    right
    simp only [nodeUpdate, Option.some.injEq] at h
    subst h
    exact ⟨[BaseMessage.AIMessage confirmationContent []], rfl⟩

/-- Characterization of one node transition on a well-formed graph
state: the message history grows by a tagged block of fresh messages,
the id supply advances by its length, and project_path never changes
(no returned update carries the project_path key). -/
theorem stepOnce_char (k : NodeKind) (g g₂ : GraphState)
    (hwf : IdsWF g) (h : stepOnce k g = some g₂) :
    ∃ fresh : List BaseMessage,
      g₂.state.messages = g.state.messages ++ tagFrom g.next_id fresh ∧
        g₂.next_id = g.next_id + fresh.length ∧
        g₂.state.project_path = g.state.project_path := by
  obtain ⟨u, hu, happ⟩ : ∃ u, nodeUpdate k g.state = some u ∧ applyUpdate g u = g₂ := by
    cases hnu : nodeUpdate k g.state with
    | none => rw [stepOnce, hnu] at h; exact absurd h (by simp)
    | some u =>
      rw [stepOnce, hnu] at h
      exact ⟨u, rfl, by simpa using h⟩
  rcases nodeUpdate_messages_shape k g.state u hu with ⟨fresh, hm⟩ | ⟨fresh, hm⟩
  · refine ⟨fresh, ?_⟩
    rw [← happ]
    unfold applyUpdate
    rw [hm, addMessages_keep g fresh hwf]
    exact ⟨rfl, rfl, rfl⟩
  · refine ⟨fresh, ?_⟩
    rw [← happ]
    unfold applyUpdate
    rw [hm, addMessages_freshOnly g fresh hwf]
    exact ⟨rfl, rfl, rfl⟩

/-- Well-formedness of the channel ids is preserved by every node
transition. -/
theorem IdsWF_step (k : NodeKind) (g g₂ : GraphState)
    (hwf : IdsWF g) (h : stepOnce k g = some g₂) : IdsWF g₂ := by
  obtain ⟨fresh, h1, h2, _⟩ := stepOnce_char k g g₂ hwf h
  obtain ⟨hok, hnd⟩ := hwf
  constructor
  · intro m hm
    rw [h1] at hm
    rcases List.mem_append.mp hm with hm | hm
    · have := hok m hm
      rw [idOk] at this ⊢
      cases hid : m.id with
      | none => rw [hid] at this; exact absurd this Bool.false_ne_true
      | some i =>
        rw [hid] at this
        have hlt : i < g.next_id := by simpa using this
        simp only [decide_eq_true_eq]
        omega
    · obtain ⟨i, hid, hle, hlt⟩ := tagFrom_id_mem fresh g.next_id m hm
      rw [idOk, hid]
      simp only [decide_eq_true_eq]
      omega
  · rw [h1, List.map_append]
    rw [List.nodup_append]
    refine ⟨hnd, tagFrom_nodup fresh g.next_id, ?_⟩
    intro a ha hb
    obtain ⟨x, hx, hxa⟩ := List.mem_map.mp ha
    obtain ⟨y, hy, hya⟩ := List.mem_map.mp hb
    obtain ⟨i, h1y, h2y, _⟩ := tagFrom_id_mem fresh g.next_id y hy
    obtain ⟨j, hj1, hj2⟩ := idOk_lt g.next_id x (hok x hx)
    have hsome : some j = some i := by rw [← hj1, ← h1y, hxa, hya]
    have := Option.some.inj hsome
    omega

/-- Invariant carried through every reachable state: the ids are well
formed and the history starts with the original system turn. -/
theorem reachable_inv (sys : String) (g : GraphState) (h : Reachable sys g) :
    IdsWF g ∧ ∃ rest, g.state.messages
      = ⟨some 0, BaseMessage.SystemMessage sys⟩ :: rest := by
  induction h with
  | init =>
    refine ⟨⟨?_, ?_⟩, [], rfl⟩
    · intro m hm
      have : m = ⟨some 0, BaseMessage.SystemMessage sys⟩ := by
        simpa [initialGraphState] using hm
      subst this
      rfl
    · simp [initialGraphState]
  | step k g g₂ _ hstep ih =>
    obtain ⟨hwf, rest, hmsgs⟩ := ih
    obtain ⟨fresh, h1, _, _⟩ := stepOnce_char k g g₂ hwf hstep
    refine ⟨IdsWF_step k g g₂ hwf hstep, rest ++ tagFrom g.next_id fresh, ?_⟩
    rw [h1, hmsgs]
    rfl

/-- A step that the claimed counter law counts: a model-turn step on a
state that does not hit the no-op guards of agent_node (at least two
messages, cleared should_terminate), or a tool-execution step on a state
whose latest turn has the tool_calls attribute (tool_node returns the
state unchanged otherwise).  Human-inquiry and limit-confirmation steps
are never counted (both reset the counter). -/
def CountedStep : NodeKind → GraphState → Prop
  | NodeKind.agent _, g =>
    2 ≤ g.state.messages.length ∧ g.state.should_terminate = false
  | NodeKind.tools _, g =>
    ∃ last, g.state.messages.getLast? = some last ∧
      hasToolCallsAttr last.msg = true
  | NodeKind.inquiry _, _ => False
  | NodeKind.confirm, _ => False

/-- A run of consecutive counted steps. -/
inductive CountedRun : GraphState → List NodeKind → GraphState → Prop where
  | nil : ∀ g, CountedRun g [] g
  | cons : ∀ k g g₁ ks g₂, CountedStep k g → stepOnce k g = some g₁ →
      CountedRun g₁ ks g₂ → CountedRun g (k :: ks) g₂

theorem counted_step_increments (k : NodeKind) (g g₁ : GraphState)
    (hc : CountedStep k g) (h : stepOnce k g = some g₁) :
    g₁.state.recursion_count = g.state.recursion_count + 1 := by
  cases k with
  | agent r =>
    obtain ⟨hlen, hterm⟩ := hc
    unfold stepOnce nodeUpdate agent_node at h
    dsimp only at h
    rw [if_neg (by omega)] at h
    rw [if_neg (by simp [hterm])] at h
    simp only [Option.map_some', Option.some.injEq] at h
    rw [← h]
    rfl
  | tools env =>
    obtain ⟨last, hlast, hattr⟩ := hc
    unfold stepOnce nodeUpdate tool_node at h
    dsimp only at h
    rw [hlast] at h
    dsimp only at h
    rw [if_pos hattr] at h
    simp only [Option.map_some', Option.some.injEq] at h
    rw [← h]
    rfl
  | inquiry raw => exact hc.elim
  | confirm => exact hc.elim

theorem counted_run_counts (g : GraphState) (ks : List NodeKind) (g₂ : GraphState)
    (h : CountedRun g ks g₂) :
    g₂.state.recursion_count = g.state.recursion_count + ks.length := by
  induction h with
  | nil g => simp
  | cons k g g₁ ks g₂ hc hstep _ ih =>
    rw [ih, counted_step_increments k g g₁ hc hstep]
    simp only [List.length_cons]
    omega

/-- C4, amended theorem.  Provided every model-turn step runs on a state
with at least two messages and a cleared should_terminate flag, and
every tool-execution step runs on a state whose latest turn carries the
tool_calls attribute (the no-op guard branches of agent_node and
tool_node return the state unchanged otherwise), each such step
increments recursion_count by exactly 1, so after N consecutive such
steps from a state with recursion_count 0 the counter equals N; and
every human-inquiry step resets recursion_count to 0 regardless of the
input. -/
theorem c4_step_counter :
    (∀ g ks g₂, CountedRun g ks g₂ → g.state.recursion_count = 0 →
        g₂.state.recursion_count = ks.length) ∧
      ∀ raw g g₂, stepOnce (NodeKind.inquiry raw) g = some g₂ →
        g₂.state.recursion_count = 0 := by
  constructor
  · intro g ks g₂ h h0
    have := counted_run_counts g ks g₂ h
    omega
  · intro raw g g₂ h
    unfold stepOnce nodeUpdate user_inquiry_node at h
    dsimp only at h
    cases hl : g.state.messages.getLast? with
    | none => rw [hl] at h; simp at h
    | some last =>
      rw [hl] at h
      dsimp only at h
      simp only [Option.map_some', Option.some.injEq] at h
      rw [← h]
      rfl

/-- Concrete two-message session state shared by several concrete
instantiations: a system turn and a user turn, cleared flags, zero
counter. -/
def exBase : GraphState :=
  ⟨⟨[⟨some 0, BaseMessage.SystemMessage "sys"⟩,
     ⟨some 1, BaseMessage.HumanMessage "hi"⟩], none, 0, false, false⟩, 2⟩

/-- Result of one effective model-turn step on exBase. -/
def exC4g1 : GraphState :=
  ⟨⟨[⟨some 0, BaseMessage.SystemMessage "sys"⟩,
     ⟨some 1, BaseMessage.HumanMessage "hi"⟩,
     ⟨some 2, BaseMessage.AIMessage "ok" []⟩], none, 1, false, false⟩, 3⟩

/-- Result of one human-inquiry step with input hello on exBase. -/
def exC4g2 : GraphState :=
  ⟨⟨[⟨some 0, BaseMessage.SystemMessage "sys"⟩,
     ⟨some 1, BaseMessage.HumanMessage "hi"⟩,
     ⟨some 2, BaseMessage.HumanMessage "hello"⟩], none, 0, false, false⟩, 3⟩

/-- C4, witness: one counted model-turn step from a zero-counter state
gives counter 1, and a human-inquiry step gives counter 0. -/
theorem c4_step_counter_witness :
    exC4g1.state.recursion_count = 1 ∧ exC4g2.state.recursion_count = 0 :=
  ⟨c4_step_counter.1 exBase [NodeKind.agent (BaseMessage.AIMessage "ok" [])]
      exC4g1
      (CountedRun.cons _ _ _ _ _ ⟨by decide, rfl⟩ (by decide)
        (CountedRun.nil _))
      rfl,
    c4_step_counter.2 (some "hello") exBase exC4g2 (by decide)⟩

/-- C4, counterexample to the claim as stated: from the initial session
state (one message, counter 0), one model-turn step leaves the counter
at 0, not 1 — agent_node hits its too-short-history guard and returns
the state unchanged, so the unconditional each-step-increments-by-one
law fails. -/
theorem c4_step_counter_cex :
    stepOnce (NodeKind.agent (BaseMessage.AIMessage "" []))
        (initialGraphState "sys") = some (initialGraphState "sys") ∧
      (initialGraphState "sys").state.recursion_count = 0 ∧
      (initialGraphState "sys").state.recursion_count ≠ 1 :=
  ⟨by decide, rfl, by decide⟩

/-- C5, amended theorem.  The limit-confirmation node returns an update
whose message list holds only the synthetic confirmation turn, but the
add_messages reducer of the messages channel appends that fresh turn to
the prior history, so the produced state consists of the prior history
plus the confirmation turn, with recursion_count reset to 0 and
is_waiting_response set to true (project_path untouched). -/
theorem c5_confirmation_step (g : GraphState) (h : IdsWF g) :
    (require_confirmation g.state).messages
        = [⟨none, BaseMessage.AIMessage confirmationContent []⟩] ∧
      stepOnce NodeKind.confirm g = some
        ⟨⟨g.state.messages
            ++ [⟨some g.next_id, BaseMessage.AIMessage confirmationContent []⟩],
          g.state.project_path, 0, false, true⟩, g.next_id + 1⟩ := by
  refine ⟨rfl, ?_⟩
  have hadd := addMessages_freshOnly g
    [BaseMessage.AIMessage confirmationContent []] h
  simp only [List.map_cons, List.map_nil] at hadd
  unfold stepOnce nodeUpdate
  simp only [Option.map_some', Option.some.injEq]
  unfold applyUpdate require_confirmation
  rw [hadd]
  simp [tagFrom]

/-- C5, witness: the amended theorem applied to the concrete state
exBase. -/
theorem c5_confirmation_step_witness :
    (require_confirmation exBase.state).messages
        = [⟨none, BaseMessage.AIMessage confirmationContent []⟩] ∧
      stepOnce NodeKind.confirm exBase = some
        ⟨⟨exBase.state.messages
            ++ [⟨some exBase.next_id,
                BaseMessage.AIMessage confirmationContent []⟩],
          exBase.state.project_path, 0, false, true⟩, exBase.next_id + 1⟩ :=
  c5_confirmation_step exBase (by decide)

/-- C5, counterexample to the claim as stated: from the two-message
state exBase the limit-confirmation transition produces a three-message
history ending in the confirmation turn — the prior history is
preserved, not discarded, so the produced message list is not the fresh
single-element list the claim describes. -/
theorem c5_confirmation_cex :
    (stepOnce NodeKind.confirm exBase).map
        (fun g => g.state.messages.map IdMsg.msg)
      = some [BaseMessage.SystemMessage "sys", BaseMessage.HumanMessage "hi",
          BaseMessage.AIMessage confirmationContent []] ∧
      [BaseMessage.SystemMessage "sys", BaseMessage.HumanMessage "hi",
          BaseMessage.AIMessage confirmationContent []]
        ≠ [BaseMessage.AIMessage confirmationContent []] :=
  ⟨by decide, by decide⟩

/-- C6: in every state reachable from the initial session state (a
single system turn, main.py lines 113-120) by any sequence of node
transitions, the first element of the message history is a system turn
— every node either appends fresh messages to the history or has its
fresh-only return value appended by the add_messages reducer, so the
head is never displaced. -/
theorem c6_system_first (sys : String) (g : GraphState) (h : Reachable sys g) :
    (g.state.messages.map IdMsg.msg).head?
      = some (BaseMessage.SystemMessage sys) := by
  obtain ⟨-, rest, hm⟩ := reachable_inv sys g h
  rw [hm]
  rfl

/-- C6, witness: the invariant at the initial state itself. -/
theorem c6_system_first_witness :
    (((initialGraphState "sys").state.messages.map IdMsg.msg)).head?
      = some (BaseMessage.SystemMessage "sys") :=
  c6_system_first "sys" (initialGraphState "sys") Reachable.init

theorem toolResponses_eq_filter_map (env : ToolCall → ToolOutcome)
    (tcs : List ToolCall) :
    toolResponses env tcs
      = (tcs.filter fun c => registryNames.contains c.name).map
          (toolResultMessage env) := by
  induction tcs with
  | nil => rfl
  | cons c cs ih =>
    by_cases h : c.name ∈ registryNames
      <;> simp [toolResponses, List.filter_cons, h, ih]

/-- The tool_call_id attribute of a produced tool message. -/
def toolCallIdOf : BaseMessage → Option String
  | BaseMessage.ToolMessage _ i => some i
  | _ => none

theorem toolResultMessage_id (env : ToolCall → ToolOutcome) (c : ToolCall) :
    toolCallIdOf (toolResultMessage env c) = some c.id := by
  unfold toolResultMessage
  cases env c <;> rfl

/-- C7: a tool-execution step triggered by an assistant turn carrying
tool-call requests appends exactly one tool-result turn per request
whose name resolves in the registry, in the order of the originating
requests (the appended block is the filter of the request list mapped
through the per-call result), requests with unresolvable names are
silently skipped, and every produced result is correlated to its
request by call id. -/
theorem c7_tool_results (env : ToolCall → ToolOutcome) (g g₂ : GraphState)
    (last : IdMsg) (content : String) (tcs : List ToolCall)
    (hwf : IdsWF g)
    (hlast : g.state.messages.getLast? = some last)
    (hmsg : last.msg = BaseMessage.AIMessage content tcs)
    (_hne : tcs ≠ [])
    (hstep : stepOnce (NodeKind.tools env) g = some g₂) :
    g₂.state.messages.map IdMsg.msg
        = g.state.messages.map IdMsg.msg
            ++ (tcs.filter fun c => registryNames.contains c.name).map
                (toolResultMessage env)
      ∧ ∀ c ∈ tcs, toolCallIdOf (toolResultMessage env c) = some c.id := by
  refine ⟨?_, fun c _ => toolResultMessage_id env c⟩
  unfold stepOnce nodeUpdate tool_node at hstep
  dsimp only at hstep
  rw [hlast] at hstep
  dsimp only at hstep
  rw [if_pos (show hasToolCallsAttr last.msg = true by rw [hmsg]; rfl)] at hstep
  simp only [Option.map_some', Option.some.injEq] at hstep
  rw [← hstep]
  unfold applyUpdate
  rw [addMessages_keep g (toolResponses env (toolCallsOf last.msg)) hwf]
  dsimp only
  rw [List.map_append, tagFrom_map_msg, hmsg]
  dsimp only [toolCallsOf]
  rw [toolResponses_eq_filter_map]

theorem toolResponses_append (env : ToolCall → ToolOutcome)
    (l₁ l₂ : List ToolCall) :
    toolResponses env (l₁ ++ l₂) = toolResponses env l₁ ++ toolResponses env l₂ := by
  induction l₁ with
  | nil => rfl
  | cons c cs ih =>
    by_cases h : c.name ∈ registryNames <;> simp [toolResponses, h, ih]

/-- C8: when the invocation of one resolvable tool call raises an
exception, the step appends a tool-result turn whose content is the
serialized error dictionary with the exception text, correlated to that
call id, and the remaining sibling calls in the same assistant turn are
still executed (their results follow in order). -/
theorem c8_error_isolation (env : ToolCall → ToolOutcome) (g g₂ : GraphState)
    (last : IdMsg) (content : String) (pre post : List ToolCall) (c : ToolCall)
    (e : String)
    (hwf : IdsWF g)
    (hlast : g.state.messages.getLast? = some last)
    (hmsg : last.msg = BaseMessage.AIMessage content (pre ++ c :: post))
    (hres : registryNames.contains c.name = true)
    (herr : env c = ToolOutcome.exn e)
    (hstep : stepOnce (NodeKind.tools env) g = some g₂) :
    g₂.state.messages.map IdMsg.msg
      = g.state.messages.map IdMsg.msg
          ++ toolResponses env pre
          ++ BaseMessage.ToolMessage
              (jsonDumps [("status", "error"), ("message", e)]) c.id
            :: toolResponses env post := by
  unfold stepOnce nodeUpdate tool_node at hstep
  dsimp only at hstep
  rw [hlast] at hstep
  dsimp only at hstep
  rw [if_pos (show hasToolCallsAttr last.msg = true by rw [hmsg]; rfl)] at hstep
  simp only [Option.map_some', Option.some.injEq] at hstep
  rw [← hstep]
  unfold applyUpdate
  rw [addMessages_keep g (toolResponses env (toolCallsOf last.msg)) hwf]
  dsimp only
  rw [List.map_append, tagFrom_map_msg, hmsg]
  dsimp only [toolCallsOf]
  rw [toolResponses_append]
  have hc : toolResponses env (c :: post)
      = BaseMessage.ToolMessage
          (jsonDumps [("status", "error"), ("message", e)]) c.id
        :: toolResponses env post := by
    have hmem : c.name ∈ registryNames := by simpa using hres
    simp [toolResponses, hmem, toolResultMessage, herr]
  rw [hc, List.append_assoc]

/-- Tool environment for the C7 witness: call_1 succeeds; anything else
would raise. -/
def envC7 : ToolCall → ToolOutcome := fun c =>
  if c.id = "call_1" then ToolOutcome.ok [("status", "success")]
  else ToolOutcome.exn "boom"

/-- State whose latest turn is an assistant turn with one resolvable
call (create_file) and one unresolvable call (unknown_tool). -/
def exC7 : GraphState :=
  ⟨⟨[⟨some 0, BaseMessage.SystemMessage "sys"⟩,
     ⟨some 1, BaseMessage.AIMessage ""
       [⟨"call_1", "create_file", "a"⟩, ⟨"call_2", "unknown_tool", "b"⟩]⟩],
    none, 0, false, false⟩, 2⟩

/-- Result of the tool step on exC7: exactly one tool-result turn, for
the resolvable call, correlated by call_1; the unresolvable call left no
trace. -/
def exC7r : GraphState :=
  ⟨⟨[⟨some 0, BaseMessage.SystemMessage "sys"⟩,
     ⟨some 1, BaseMessage.AIMessage ""
       [⟨"call_1", "create_file", "a"⟩, ⟨"call_2", "unknown_tool", "b"⟩]⟩,
     ⟨some 2, BaseMessage.ToolMessage (jsonDumps [("status", "success")])
       "call_1"⟩], none, 1, false, false⟩, 3⟩

/-- C7, witness: the theorem applied to the concrete two-call state. -/
theorem c7_tool_results_witness :
    exC7r.state.messages.map IdMsg.msg
        = exC7.state.messages.map IdMsg.msg
            ++ (([⟨"call_1", "create_file", "a"⟩,
                  ⟨"call_2", "unknown_tool", "b"⟩] : List ToolCall).filter
                  fun c => registryNames.contains c.name).map
                (toolResultMessage envC7)
      ∧ ∀ c ∈ ([⟨"call_1", "create_file", "a"⟩,
            ⟨"call_2", "unknown_tool", "b"⟩] : List ToolCall),
          toolCallIdOf (toolResultMessage envC7 c) = some c.id :=
  c7_tool_results envC7 exC7 exC7r
    ⟨some 1, BaseMessage.AIMessage ""
      [⟨"call_1", "create_file", "a"⟩, ⟨"call_2", "unknown_tool", "b"⟩]⟩
    "" [⟨"call_1", "create_file", "a"⟩, ⟨"call_2", "unknown_tool", "b"⟩]
    (by decide) (by decide) rfl (by decide) (by decide)

/-- Tool environment for the C8 witness: call_1 raises, every other call
succeeds. -/
def envC8 : ToolCall → ToolOutcome := fun c =>
  if c.id = "call_1" then ToolOutcome.exn "boom"
  else ToolOutcome.ok [("status", "success")]

/-- State whose latest turn is an assistant turn with a failing
create_file call followed by a succeeding run_command call. -/
def exC8 : GraphState :=
  ⟨⟨[⟨some 0, BaseMessage.SystemMessage "sys"⟩,
     ⟨some 1, BaseMessage.AIMessage ""
       [⟨"call_1", "create_file", "a"⟩, ⟨"call_2", "run_command", "b"⟩]⟩],
    none, 0, false, false⟩, 2⟩

/-- Result of the tool step on exC8: the error result for call_1
followed by the success result for call_2 — the sibling call still
ran. -/
def exC8r : GraphState :=
  ⟨⟨[⟨some 0, BaseMessage.SystemMessage "sys"⟩,
     ⟨some 1, BaseMessage.AIMessage ""
       [⟨"call_1", "create_file", "a"⟩, ⟨"call_2", "run_command", "b"⟩]⟩,
     ⟨some 2, BaseMessage.ToolMessage
       (jsonDumps [("status", "error"), ("message", "boom")]) "call_1"⟩,
     ⟨some 3, BaseMessage.ToolMessage (jsonDumps [("status", "success")])
       "call_2"⟩], none, 1, false, false⟩, 4⟩

/-- C8, witness: the theorem applied to the concrete failing-call
state. -/
theorem c8_error_isolation_witness :
    exC8r.state.messages.map IdMsg.msg
      = exC8.state.messages.map IdMsg.msg
          ++ toolResponses envC8 []
          ++ BaseMessage.ToolMessage
              (jsonDumps [("status", "error"), ("message", "boom")])
              (ToolCall.mk "call_1" "create_file" "a").id
            :: toolResponses envC8 [⟨"call_2", "run_command", "b"⟩] :=
  c8_error_isolation envC8 exC8 exC8r
    ⟨some 1, BaseMessage.AIMessage ""
      [⟨"call_1", "create_file", "a"⟩, ⟨"call_2", "run_command", "b"⟩]⟩
    "" [] [⟨"call_2", "run_command", "b"⟩] ⟨"call_1", "create_file", "a"⟩
    "boom" (by decide) (by decide) rfl (by decide) (by decide) (by decide)

/-- Tool environment for the C9 exhibit: the create_file call succeeds
and reports file_path /tmp/proj/a.txt, exactly as tools.py lines 39-43
would. -/
def envC9 : ToolCall → ToolOutcome := fun c =>
  if c.name = "create_file" then
    ToolOutcome.ok
      [("status", "success"), ("message", "文件创建成功: /tmp/proj/a.txt"),
       ("file_path", "/tmp/proj/a.txt")]
  else ToolOutcome.ok [("status", "success")]

/-- State whose latest turn is an assistant turn with one create_file
call, with no project path discovered yet. -/
def exC9 : GraphState :=
  ⟨⟨[⟨some 0, BaseMessage.SystemMessage "sys"⟩,
     ⟨some 1, BaseMessage.AIMessage ""
       [⟨"call_1", "create_file", "args"⟩]⟩], none, 0, false, false⟩, 2⟩

/-- C9, bug exhibit.  The loop body of tool_node computes the containing
directory of the reported file_path and writes it into its local state
dictionary (value some /tmp/proj, first conjunct), but the update it
returns does not carry the project_path key, so after the transition the
graph state still has project_path none (second conjunct) — the claimed
last-write-wins update of project_path never reaches the state any node
or the driver can observe. -/
theorem c9_project_path_lost :
    lostProjectPath envC9 none [⟨"call_1", "create_file", "args"⟩]
        = some "/tmp/proj" ∧
      (stepOnce (NodeKind.tools envC9) exC9).map
          (fun g => g.state.project_path)
        = some none :=
  ⟨by decide, by decide⟩

/-- posixpath basename, as used on tools.py line 170: the part after the
last slash. -/
def pyBasename (p : String) : String :=
  String.mk ((p.data.reverse.takeWhile fun c => c ≠ '/').reverse)

/-- The extension part of os.path.splitext (tools.py line 172): from the
last dot onward, provided some earlier character of the name is not a
dot (leading dots never start an extension); empty otherwise. -/
def extOf (name : String) : String :=
  let cs := name.data
  match ((List.range cs.length).filter fun i => cs.get? i = some '.').getLast? with
  | none => ""
  | some i =>
    if (cs.take i).any fun ch => ch ≠ '.' then String.mk (cs.drop i) else ""

/-- The return value built once a dispatched extractor has run, tools.py
lines 189-201: the success dictionary with name, size, content length,
content and instructions (numeric fields carried as their decimal
strings here), or — when the extractor raised — the error dictionary
produced by the enclosing except clause. -/
def uploadFinish (file_name : String) (file_size : Nat) (instructions : String) :
    Except String String → List (String × String)
  | Except.ok content =>
    [("status", "success"), ("file_name", file_name),
     ("file_size", toString file_size),
     ("content_count", toString content.length),
     ("content", content), ("instructions", instructions)]
  | Except.error e =>
    [("status", "error"), ("message", "文件分析失败: " ++ e)]

/-- The extensions the dispatch chain of tools.py lines 177-187 accepts;
every other extension falls to the unsupported-type return on line 187.
In particular there is no .csv arm, although extract_csv_content is
defined in the same class (lines 228-241). -/
def dispatchedExtensions : List String := [".pdf", ".xlsx", ".xls", ".docx", ".txt"]

/-- upload_and_analyze_file, tools.py lines 152-201.  The filesystem is
abstracted as fs (none: the path does not exist, some n: it exists with
size n); the four format extractors are oracles returning the extracted
text or the text of the exception they raised.  Dispatch follows the
if-chain of lines 177-187 on the lowercased extension of the basename. -/
def upload_and_analyze_file (fs : String → Option Nat)
    (pdfExtract excelExtract wordExtract txtRead : String → Except String String)
    (file_path analysis_instructions : String) : List (String × String) :=
  match fs file_path with
  | none => [("status", "error"), ("message", "文件不存在")]
  | some file_size =>
    let file_name := pyBasename file_path
    let file_ext := lowerStr (extOf file_name)
    if file_ext = ".pdf" then
      uploadFinish file_name file_size analysis_instructions (pdfExtract file_path)
    else if file_ext = ".xlsx" ∨ file_ext = ".xls" then
      uploadFinish file_name file_size analysis_instructions (excelExtract file_path)
    else if file_ext = ".docx" then
      uploadFinish file_name file_size analysis_instructions (wordExtract file_path)
    else if file_ext = ".txt" then
      uploadFinish file_name file_size analysis_instructions (txtRead file_path)
    else [("status", "error"), ("message", "不支持的文件类型: " ++ file_ext)]

/-- C10: for every existing file whose lowercased extension is not one
of .pdf, .xlsx, .xls, .docx, .txt, upload_and_analyze_file returns the
unsupported-file-type error dictionary, whatever the four extractors
would return — the universal quantification over the extractor oracles
shows no content extraction takes place; .csv files in particular take
this branch (see the witness), the defined CSV extractor never being
dispatched. -/
theorem c10_unsupported_extension
    (fs : String → Option Nat)
    (pdfExtract excelExtract wordExtract txtRead : String → Except String String)
    (file_path analysis_instructions : String) (size : Nat)
    (hex : fs file_path = some size)
    (hns : lowerStr (extOf (pyBasename file_path)) ∉ dispatchedExtensions) :
    upload_and_analyze_file fs pdfExtract excelExtract wordExtract txtRead
        file_path analysis_instructions
      = [("status", "error"),
         ("message",
          "不支持的文件类型: " ++ lowerStr (extOf (pyBasename file_path)))] := by
  simp only [dispatchedExtensions, List.mem_cons, List.not_mem_nil, or_false,
    not_or] at hns
  obtain ⟨h1, h2, h3, h4, h5⟩ := hns
  simp only [upload_and_analyze_file, hex]
  rw [if_neg h1, if_neg (not_or.mpr ⟨h2, h3⟩), if_neg h4, if_neg h5]

/-- Filesystem for the C10 witness: a single existing file t.csv. -/
def fsC10 : String → Option Nat :=
  fun p => if p = "/data/t.csv" then some 10 else none

/-- Extractor oracle for the C10 witness. -/
def extractC10 : String → Except String String := fun _ => Except.ok "x"

/-- C10, witness: an existing .csv file is rejected with the
unsupported-file-type error. -/
theorem c10_unsupported_extension_witness :
    upload_and_analyze_file fsC10 extractC10 extractC10 extractC10 extractC10
        "/data/t.csv" "请分析此文件内容"
      = [("status", "error"), ("message", "不支持的文件类型: .csv")] := by
  have h := c10_unsupported_extension fsC10 extractC10 extractC10 extractC10
    extractC10 "/data/t.csv" "请分析此文件内容" 10 (by decide) (by decide)
  exact h.trans (by decide)

end LlmAgent
